import Mathlib

/-!
Formal model of the go-daemonize service supervisor (`service.go` of
PlakarKorp/go-daemonize).  The data model and every operation below are
translated from the source; line numbers refer to `service.go`.  The
concurrent orchestration of `Daemon.Run` (main thread, one goroutine per
service, signal delivery, base-context cancellation) is embedded as a
small-step machine: a `Config` holds the shared state and `nexts` lists the
configurations reachable in one atomic step (one lock-protected critical
section, or one single shared-memory access, of the source).
-/

/-- Model of the `ServiceStatus` enumeration (lines 39-46 of service.go). -/
inductive ServiceStatus
  | down
  | starting
  | up
  | stopping
deriving DecidableEq, Repr

/-- Go error values relevant to the supervisor.  `stopped` is the sentinel
`var Stopped = errors.New("stopped")` (line 57); `canceled` is
`context.Canceled`; `deadlineExceeded` is `context.DeadlineExceeded`;
`errMsg` stands for any other non-nil error a service may return.
A Go `error` that may be nil is modelled as `Option GoErr`. -/
inductive GoErr
  | canceled
  | deadlineExceeded
  | stopped
  | errMsg (msg : String)
deriving DecidableEq, Repr

/-- Leveled logging events of the logging collaborator.  The supervisor only
emits events; the model records the level and the service name (tag). -/
inductive LogLevel
  | debug
  | info
  | warn
  | error
  | fatal
deriving DecidableEq, Repr

/-- One emitted log line: its level and the name of the service it concerns
(or a fixed tag for the orchestrator's own lines). -/
structure LogEvent where
  level : LogLevel
  tag : String
deriving DecidableEq, Repr

/-- Model of the `ServiceController` struct fields (lines 48-55).  `hasStop`
models whether the `stop context.CancelCauseFunc` field is non-nil; `ctxId`
models which context value is stored in the `ctx` field (0 for the zero
value).  The `service` field is modelled separately (`SvcBeh`, below), and
the mutex is implicit: each machine step is one critical section. -/
structure ServiceController where
  name : String
  status : ServiceStatus
  hasStop : Bool
  ctxId : Nat
deriving DecidableEq, Repr

/-- Model of `ServiceController.Up` (lines 151-156): unconditionally sets the
status to up (and logs "%s: up" at info level, recorded by the machine). -/
def ServiceController.Up (c : ServiceController) : ServiceController :=
  { c with status := ServiceStatus.up }

/-- Model of `ServiceController.Stopping` (lines 158-163): unconditionally
sets the status to stopping. -/
def ServiceController.Stopping (c : ServiceController) : ServiceController :=
  { c with status := ServiceStatus.stopping }

/-- Model of the synchronous part of `ServiceController.startService`
(lines 112-123): `ctrl.ctx = ctx` is assigned unconditionally (line 113),
then under the lock the status is checked; if it is not down the function
returns `fmt.Errorf("service is %s", ctrl.status)` — modelled as `some` of
the status the message reports — otherwise it transitions to starting and
returns nil.  The `go func(){...}` (lines 125-138) and `wg.Add(1)`
(line 140) that follow on the success path are modelled as the separate
machine steps below, in source order. -/
def ServiceController.startService (c : ServiceController) (ctx : Nat) :
    ServiceController × Option ServiceStatus :=
  let c1 := { c with ctxId := ctx }
  if c1.status ≠ ServiceStatus.down then
    (c1, some c1.status)
  else
    ({ c1 with status := ServiceStatus.starting }, none)

/-- A cancelled (done) context as observed after `<-ctx.Done()` has returned:
`cause` is `context.Cause(ctx)` and `err` is `ctx.Err()`.  For a done
context `ctx.Err()` is always non-nil (`context.Canceled` or
`context.DeadlineExceeded`), hence the `err` field has no nil case. -/
structure DoneCtx where
  cause : GoErr
  err : GoErr
deriving DecidableEq, Repr

/-- Model of lines 168-171, the part of `ServiceController.Run` after
`<-ctx.Done()`: return nil when the cause is the `Stopped` sentinel,
and `ctx.Err()` otherwise. -/
def runAfterDone (ctx : DoneCtx) : Option GoErr :=
  if ctx.cause = GoErr.stopped then none else some ctx.err

/-- Model of the convenience helper `ServiceController.Run` (lines 165-172):
call `ctrl.Up()`, block on `<-ctx.Done()`, then convert the observed
cancellation cause into the outcome via `runAfterDone`. -/
def ServiceController.Run (c : ServiceController) (ctx : DoneCtx) :
    ServiceController × Option GoErr :=
  (c.Up, runAfterDone ctx)

/-- Behaviour of a registered service's `Run` method (the `Service`
interface, lines 35-37): either it returns with a fixed result without
waiting for cancellation (`immediate`), or it is built on the convenience
helper `ServiceController.Run` (`helper`): it marks the controller up and
then blocks until its context is done, converting the cause via
`runAfterDone`. -/
inductive SvcBeh
  | immediate (err : Option GoErr)
  | helper
deriving DecidableEq, Repr

/-- Phase of the goroutine launched for one controller by `startService`. -/
inductive TaskPhase
  | notStarted
  | spawned
  | running
  | finished
deriving DecidableEq, Repr

/-- One registered service: its controller struct, the behaviour of its
`Run` method, and the runtime state of its goroutine — the phase, whether a
helper-style service has already called `Up`, and the cancellation cause
recorded directly on the derived `serviceCtx` (none when the cancel func was
not invoked; the base context may additionally have been cancelled, which
also makes the child done — see `Slot.childDone`). -/
structure Slot where
  ctrl : ServiceController
  beh : SvcBeh
  task : TaskPhase
  upCalled : Bool
  childCause : Option GoErr
deriving DecidableEq, Repr

/-- Model of `ServiceController.stopService` (lines 144-149): if the stored
cancel func is non-nil, invoke it with the `Stopped` cause and set the field
to nil; otherwise do nothing.  Invoking `cancel(Stopped)` records `Stopped`
as the child context's cause only if the child context is not already done
(the first cancellation wins in Go); the child is already done when the base
context has been cancelled. -/
def Slot.stopService (s : Slot) (baseCancelled : Bool) : Slot :=
  if s.ctrl.hasStop then
    { s with
      ctrl := { s.ctrl with hasStop := false },
      childCause :=
        if s.childCause = none ∧ baseCancelled = false then some GoErr.stopped
        else s.childCause }
  else s

/-- The done-state of a slot's derived `serviceCtx` (created with
`context.WithCancelCause(ctx)`, line 126): the directly recorded
cancellation cause if any, else — when the base context has been cancelled,
which propagates to the child — the base cause `context.Canceled`. -/
def Slot.childDone (s : Slot) (baseCancelled : Bool) : Option GoErr :=
  match s.childCause with
  | some c => some c
  | none => if baseCancelled then some GoErr.canceled else none

/-- Whether `ctrl.service.Run(ctrl, serviceCtx)` (line 128) is able to
return now and with which result: an `immediate` service returns right away
with its fixed result; a `helper` service returns only after it has called
`Up` and its context is done, with the result `runAfterDone` computes from
the observed cause (the `err` field of the done context being
`context.Canceled`). -/
def Slot.svcResult (s : Slot) (baseCancelled : Bool) : Option (Option GoErr) :=
  match s.beh with
  | SvcBeh.immediate err => some err
  | SvcBeh.helper =>
      if s.upCalled then
        match s.childDone baseCancelled with
        | some cause => some (runAfterDone { cause := cause, err := GoErr.canceled })
        | none => none
      else none

/-- Control location of the orchestrator thread running `Daemon.Run`
(lines 59-90). -/
inductive MainPhase
  | starting (i : Nat)
  | addBarrier (i : Nat)
  | waiting
  | stopping (i : Nat)
  | joining
  | returned
  | panicked
deriving DecidableEq, Repr

/-- Shared state of one execution of `Daemon.Run`.  `slots` is the
registry's controllers in iteration order; `wg` is the WaitGroup counter;
`adds` is a ghost counter of executed `wg.Add(1)` calls (never read by any
step); `failIdx` is a ghost record of the index at which the startup loop
failed (the `ok = false` branch, lines 69-71); `sigDelivered` says a
SIGINT/SIGTERM has been delivered on the `quit` channel; `baseCancelled`
says the base context passed to `Run` has been cancelled by the caller;
`baseCtx` is the id of the context derived on line 64
(`context.WithValue(ctx, serviceProviderKey, daemon)`). -/
structure Config where
  slots : List Slot
  main : MainPhase
  wg : Nat
  adds : Nat
  failIdx : Option Nat
  sigDelivered : Bool
  baseCancelled : Bool
  baseCtx : Nat
deriving DecidableEq, Repr

/-- What the environment may ever do in an execution: deliver one of the two
termination signals, and/or cancel the base context. -/
structure Env where
  sig : Bool
  cancel : Bool
deriving DecidableEq, Repr

/-- Log lines emitted by the tail of the goroutine (lines 130-135): a
warning "service %s returned error" exactly when the service's result is a
non-nil error, then the info line "%s: stopped". -/
def finishLog (name : String) (err : Option GoErr) : List LogEvent :=
  (match err with
   | some _ => [{ level := LogLevel.warn, tag := name }]
   | none => []) ++ [{ level := LogLevel.info, tag := name }]

/-- One step of the orchestrator's own control flow in `Daemon.Run`
(lines 59-90), together with the log lines it emits.
In phase `starting i` the loop (66-73) runs `startService` on slot `i`: on
error it logs at error level, records the failure (`ok = false`) and breaks
straight to the shutdown loop; on success the slot's goroutine is spawned
(the `go` statement, line 125) and the thread still has to execute
`wg.Add(1)` (line 140) — phase `addBarrier i`.  With the loop done it blocks
on the signal channel (`waiting`, lines 75-82); `sig := <-quit` proceeds
only once a signal has been delivered.  The shutdown loop (84-86) runs
`stopService` on every slot, then `wg.Wait()` (`joining`, line 88) proceeds
only when the counter is 0, logging "exiting" and returning. -/
def mainStep (c : Config) : Option (Config × List LogEvent) :=
  match c.main with
  | MainPhase.starting i =>
    match c.slots[i]? with
    | some s =>
      match (s.ctrl.startService c.baseCtx).2 with
      | some _ =>
        some ({ c with
                 slots := c.slots.set i { s with ctrl := (s.ctrl.startService c.baseCtx).1 },
                 failIdx := some i,
                 main := MainPhase.stopping 0 },
              [{ level := LogLevel.error, tag := s.ctrl.name }])
      | none =>
        some ({ c with
                 slots := (c.slots.set i
                   { s with ctrl := (s.ctrl.startService c.baseCtx).1,
                            task := TaskPhase.spawned }),
                 main := MainPhase.addBarrier i },
              [{ level := LogLevel.info, tag := s.ctrl.name }])
    | none => some ({ c with main := MainPhase.waiting }, [])
  | MainPhase.addBarrier i =>
    some ({ c with wg := c.wg + 1, adds := c.adds + 1, main := MainPhase.starting (i + 1) }, [])
  | MainPhase.waiting =>
    if c.sigDelivered then
      some ({ c with main := MainPhase.stopping 0 },
            [{ level := LogLevel.info, tag := "signal" },
             { level := LogLevel.info, tag := "shutting down" }])
    else none
  | MainPhase.stopping i =>
    match c.slots[i]? with
    | some s =>
      some ({ c with
               slots := c.slots.set i (s.stopService c.baseCancelled),
               main := MainPhase.stopping (i + 1) }, [])
    | none => some ({ c with main := MainPhase.joining }, [])
  | MainPhase.joining =>
    if c.wg = 0 then
      some ({ c with main := MainPhase.returned },
            [{ level := LogLevel.info, tag := "exiting" }])
    else none
  | MainPhase.returned => none
  | MainPhase.panicked => none

/-- The first action of slot `i`'s goroutine (lines 126-127): create
`serviceCtx` and store the cancel func in `ctrl.stop`. -/
def trigSetStep (c : Config) (i : Nat) : Option Config :=
  match c.slots[i]? with
  | some s =>
    if s.task = TaskPhase.spawned then
      some { c with slots := (c.slots.set i
              { s with ctrl := { s.ctrl with hasStop := true }, task := TaskPhase.running }) }
    else none
  | none => none

/-- A helper-style service calls `ctrl.Up()` (line 166) once, when its `Run`
starts executing. -/
def svcUpStep (c : Config) (i : Nat) : Option (Config × List LogEvent) :=
  match c.slots[i]? with
  | some s =>
    if s.task = TaskPhase.running ∧ s.beh = SvcBeh.helper ∧ s.upCalled = false then
      some ({ c with slots := (c.slots.set i
                { s with ctrl := s.ctrl.Up, upCalled := true }) },
            [{ level := LogLevel.info, tag := s.ctrl.name }])
    else none
  | none => none

/-- The tail of slot `i`'s goroutine (lines 128-137): the service's `Run`
returns with some result, then `ctrl.stop = nil`, a non-nil error is logged
as a warning, the status is set to `ServiceStopping` under the lock, and
`wg.Done()` is called.  Because `wg.Add(1)` (line 140) runs only after the
`go` statement, the counter can still be 0 here; `wg.Done()` then panics
("negative WaitGroup counter") and kills the process (`panicked`). -/
def finishedSlot (s : Slot) : Slot :=
  { s with ctrl := { s.ctrl with hasStop := false, status := ServiceStatus.stopping },
           task := TaskPhase.finished }

/-- The completion step of slot `i`'s goroutine, applying `finishedSlot` and
`wg.Done()`; panics (and kills the process) when the counter is already 0. -/
def finishStep (c : Config) (i : Nat) : Option (Config × List LogEvent) :=
  match c.slots[i]? with
  | some s =>
    if s.task = TaskPhase.running then
      match s.svcResult c.baseCancelled with
      | some err =>
        if c.wg = 0 then
          some ({ c with
                   slots := c.slots.set i (finishedSlot s),
                   main := MainPhase.panicked }, finishLog s.ctrl.name err)
        else
          some ({ c with
                   slots := c.slots.set i (finishedSlot s),
                   wg := c.wg - 1 }, finishLog s.ctrl.name err)
      | none => none
    else none
  | none => none

/-- One step of slot `i`'s goroutine: whichever of the three goroutine
actions is enabled (they are mutually exclusive by phase). -/
def taskStep (c : Config) (i : Nat) : Option (Config × List LogEvent) :=
  match trigSetStep c i with
  | some c1 => some (c1, [])
  | none =>
    match svcUpStep c i with
    | some r => some r
    | none => finishStep c i

/-- Environment steps: delivery of SIGINT/SIGTERM on the `quit` channel
(line 77), and cancellation of the base context by the caller. -/
def envSteps (env : Env) (c : Config) : List Config :=
  (if env.sig ∧ c.sigDelivered = false then [{ c with sigDelivered := true }] else []) ++
  (if env.cancel ∧ c.baseCancelled = false then [{ c with baseCancelled := true }] else [])

/-- All configurations reachable in one atomic step.  A panicked process
takes no further steps. -/
def nexts (env : Env) (c : Config) : List Config :=
  if c.main = MainPhase.panicked then []
  else
    (mainStep c).toList.map Prod.fst ++
    (List.range c.slots.length).filterMap (fun i => (taskStep c i).map Prod.fst) ++
    envSteps env c

/-- Reachability in the machine from an initial configuration. -/
inductive Reach (env : Env) (init : Config) : Config → Prop
  | refl : Reach env init init
  | step {c c1 : Config} : Reach env init c → c1 ∈ nexts env c → Reach env init c1

/-- Model of the `Daemon` registry as far as service lookup is concerned:
the name-to-controller map, each controller carrying its service; the
service instance itself is represented by its behaviour. -/
structure Daemon where
  services : List (String × SvcBeh)
deriving DecidableEq, Repr

/-- Model of `Daemon.GetService` (lines 104-110): look the name up in the
registry; if it is absent return nil (`none`), otherwise the service. -/
def Daemon.GetService (d : Daemon) (name : String) : Option SvcBeh :=
  d.services.lookup name

/-- A controller as created by `Daemon.AddService` (lines 92-102): the given
name, status down, nil stop func, zero-valued ctx field. -/
def newController (name : String) : ServiceController :=
  { name := name, status := ServiceStatus.down, hasStop := false, ctxId := 0 }

/-- A freshly registered slot: controller from `AddService`, goroutine not
yet started. -/
def initSlot (p : String × SvcBeh) : Slot :=
  { ctrl := newController p.1, beh := p.2, task := TaskPhase.notStarted,
    upCalled := false, childCause := none }

/-- The machine state at the entry of `Daemon.Run` for a daemon populated by
`AddService`: every controller is down, the WaitGroup counter is 0, no
signal has been delivered and the base context is live.  `baseCtx = 1` is
the id of the derived context of line 64 (into which the service provider
has been published). -/
def initConfig (d : Daemon) : Config :=
  { slots := d.services.map initSlot, main := MainPhase.starting 0, wg := 0, adds := 0,
    failIdx := none, sigDelivered := false, baseCancelled := false, baseCtx := 1 }

/-- The machine state at the entry of `Daemon.Run` when the controllers may
carry an arbitrary current status (for example because `Run` is invoked a
second time on the same daemon); the goroutine bookkeeping is fresh. -/
def initFrom (ctrls : List (String × ServiceStatus × SvcBeh)) : Config :=
  { slots := ctrls.map (fun p =>
      { ctrl := { name := p.1, status := p.2.1, hasStop := false, ctxId := 0 },
        beh := p.2.2, task := TaskPhase.notStarted, upCalled := false, childCause := none }),
    main := MainPhase.starting 0, wg := 0, adds := 0,
    failIdx := none, sigDelivered := false, baseCancelled := false, baseCtx := 1 }

/-- Model of the context value store as far as `serviceProviderKey` is
concerned: a context either carries a published service provider (the
daemon, published on line 64) or it does not, in which case
`ctx.Value(serviceProviderKey)` returns nil. -/
structure GoCtx where
  provider : Option Daemon
deriving DecidableEq, Repr

/-- A Go run-time panic relevant here: the failed interface type assertion
`ctx.Value(serviceProviderKey).(ServiceProvider)` on a nil value. -/
inductive GoPanic
  | interfaceConversion
deriving DecidableEq, Repr

/-- Model of `GetServiceProvider` (lines 178-180): the unchecked type
assertion succeeds exactly when a provider was published into the context;
on a context without one it panics. -/
def GetServiceProvider (ctx : GoCtx) : Except GoPanic Daemon :=
  match ctx.provider with
  | some d => Except.ok d
  | none => Except.error GoPanic.interfaceConversion

/-- Model of the package-level `GetService` (lines 182-184): resolve the
provider (possibly panicking), then look the name up. -/
def GetService (ctx : GoCtx) (name : String) : Except GoPanic (Option SvcBeh) :=
  match GetServiceProvider ctx with
  | Except.ok d => Except.ok (d.GetService name)
  | Except.error e => Except.error e

/-- Executability of a concrete step sequence: each listed configuration is
one machine step after the previous one. -/
def execOk (env : Env) : Config → List Config → Bool
  | _, [] => true
  | c, d :: l => decide (d ∈ nexts env c) && execOk env d l

theorem reach_of_execOk {env : Env} {init : Config} :
    ∀ {l : List Config} {c0 : Config}, Reach env init c0 → execOk env c0 l = true →
      ∀ c ∈ l, Reach env init c := by
  intro l
  induction l with
  | nil =>
    intro c0 _ _ c hc
    cases hc
  | cons d t ih =>
    intro c0 h hx c hc
    simp only [execOk, Bool.and_eq_true, decide_eq_true_eq] at hx
    have hd : Reach env init d := Reach.step h hx.1
    rcases List.mem_cons.mp hc with rfl | hmem
    · exact hd
    · exact ih hd hx.2 c hmem

/-- A controller whose status is up and whose ctx field holds the context 5,
as left behind by an earlier run. -/
def ctrlUpCtx5 : ServiceController :=
  { name := "s", status := ServiceStatus.up, hasStop := false, ctxId := 5 }

/-- C3 counterexample: calling startService on a controller whose status is
not Down (here: up) fails with an error reporting the current status, but it
is not free of side effects as the claim states: the controller's ctx field
is overwritten (5 becomes 7) before the status check, on line 113. -/
theorem start_not_down_overwrites_ctx :
    (ctrlUpCtx5.startService 7).2 = some ServiceStatus.up ∧
    (ctrlUpCtx5.startService 7).1.ctxId = 7 ∧
    ctrlUpCtx5.ctxId = 5 := by decide

/-- C5: a service built on the convenience helper ServiceController.Run
returns a clean (nil) outcome exactly when the observed cancellation cause
is the Stopped sentinel; any other cause yields the non-nil ctx.Err(). -/
theorem run_helper_cause (c : ServiceController) (ctx : DoneCtx) :
    (ctx.cause = GoErr.stopped → (c.Run ctx).2 = none) ∧
    (ctx.cause ≠ GoErr.stopped →
      (c.Run ctx).2 = some ctx.err ∧ (c.Run ctx).2 ≠ none) := by
  constructor
  · intro h
    simp [ServiceController.Run, runAfterDone, h]
  · intro h
    simp [ServiceController.Run, runAfterDone, h]

theorem run_helper_cause_witness :
    ((newController "a").Run { cause := GoErr.stopped, err := GoErr.canceled }).2 = none ∧
    ((newController "a").Run { cause := GoErr.deadlineExceeded, err := GoErr.deadlineExceeded }).2 ≠
      none := by
  constructor
  · exact (run_helper_cause (newController "a")
      { cause := GoErr.stopped, err := GoErr.canceled }).1 rfl
  · exact ((run_helper_cause (newController "a")
      { cause := GoErr.deadlineExceeded, err := GoErr.deadlineExceeded }).2 (by decide)).2

/-- C8: stopService with no stored cancel trigger is a no-op — the slot is
returned completely unchanged and no cancellation happens — while with a
trigger present it clears the trigger, leaves status and task untouched, and
records the Stopped cause on the child context (when the child context was
not already done). -/
theorem stop_noop_or_cancel (s : Slot) (b : Bool) :
    (s.ctrl.hasStop = false → s.stopService b = s) ∧
    (s.ctrl.hasStop = true →
      (s.stopService b).ctrl.hasStop = false ∧
      (s.stopService b).ctrl.status = s.ctrl.status ∧
      (s.stopService b).ctrl.name = s.ctrl.name ∧
      (s.stopService b).task = s.task ∧
      (s.childCause = none ∧ b = false → (s.stopService b).childCause = some GoErr.stopped) ∧
      ((s.childCause ≠ none ∨ b = true) → (s.stopService b).childCause = s.childCause)) := by
  constructor
  · intro h
    simp [Slot.stopService, h]
  · intro h
    refine ⟨?_, ?_, ?_, ?_, ?_, ?_⟩
    · simp [Slot.stopService, h]
    · simp [Slot.stopService, h]
    · simp [Slot.stopService, h]
    · simp [Slot.stopService, h]
    · intro h1
      simp [Slot.stopService, h, h1.1, h1.2]
    · intro h1
      rcases h1 with h1 | h1
      · simp [Slot.stopService, h, h1]
      · simp [Slot.stopService, h, h1]

/-- A slot whose goroutine is running and whose cancel trigger is set. -/
def slotWithStop : Slot :=
  { ctrl := { name := "a", status := ServiceStatus.up, hasStop := true, ctxId := 1 },
    beh := SvcBeh.helper, task := TaskPhase.running, upCalled := true, childCause := none }

theorem stop_noop_or_cancel_witness :
    (initSlot ("a", SvcBeh.helper)).stopService false = initSlot ("a", SvcBeh.helper) ∧
    (slotWithStop.stopService false).ctrl.hasStop = false ∧
    (slotWithStop.stopService false).childCause = some GoErr.stopped := by
  refine ⟨(stop_noop_or_cancel _ false).1 rfl, ?_, ?_⟩
  · exact ((stop_noop_or_cancel slotWithStop false).2 rfl).1
  · exact ((stop_noop_or_cancel slotWithStop false).2 rfl).2.2.2.2.1 ⟨rfl, rfl⟩

/-- A controller in the terminal-looking Stopping status. -/
def ctrlStopping : ServiceController :=
  { name := "s", status := ServiceStatus.stopping, hasStop := false, ctxId := 0 }

/-- C9 counterexample: Up() (line 153) assigns the up status unconditionally,
so a controller whose status is Stopping transitions back out of Stopping
when Up is called — Stopping is not terminal under all controller operations. -/
theorem up_exits_stopping :
    ctrlStopping.status = ServiceStatus.stopping ∧
    ctrlStopping.Up.status = ServiceStatus.up ∧
    ¬ ctrlStopping.Up.status = ServiceStatus.stopping := by decide

/-- C9 (amended): Stopping is terminal under startService (which fails,
reporting the status, and leaves it unchanged), Stopping (markStopping) and
stopService — but not under Up (markUp), which unconditionally moves the
controller to Up even from Stopping. -/
theorem stopping_terminal_amended (c : ServiceController) (s : Slot) (ctx : Nat) (b : Bool)
    (hc : c.status = ServiceStatus.stopping) (hs : s.ctrl.status = ServiceStatus.stopping) :
    (c.startService ctx).1.status = ServiceStatus.stopping ∧
    (c.startService ctx).2 = some ServiceStatus.stopping ∧
    c.Stopping.status = ServiceStatus.stopping ∧
    (s.stopService b).ctrl.status = ServiceStatus.stopping ∧
    c.Up.status = ServiceStatus.up := by
  refine ⟨?_, ?_, rfl, ?_, rfl⟩
  · simp [ServiceController.startService, hc]
  · simp [ServiceController.startService, hc]
  · rw [show (s.stopService b).ctrl.status = s.ctrl.status by
      unfold Slot.stopService; split <;> rfl, hs]

/-- A finished slot whose controller reached the Stopping status. -/
def slotStopping : Slot :=
  { ctrl := ctrlStopping, beh := SvcBeh.helper, task := TaskPhase.finished,
    upCalled := true, childCause := some GoErr.stopped }

theorem stopping_terminal_amended_witness :
    (ctrlStopping.startService 3).2 = some ServiceStatus.stopping ∧
    ctrlStopping.Stopping.status = ServiceStatus.stopping ∧
    (slotStopping.stopService true).ctrl.status = ServiceStatus.stopping ∧
    ctrlStopping.Up.status = ServiceStatus.up := by
  have h := stopping_terminal_amended ctrlStopping slotStopping 3 true rfl rfl
  exact ⟨h.2.1, h.2.2.1, h.2.2.2.1, h.2.2.2.2⟩

/-- C10: on a context into which no service provider was published, both
GetServiceProvider and GetService panic via the unchecked type assertion of
line 179 instead of returning an absent indication; only on a context
carrying a provider does lookup of an unregistered name return nil without
crashing. -/
theorem get_service_panics_without_provider (name : String) (d : Daemon)
    (hmiss : d.services.lookup name = none) :
    GetServiceProvider { provider := none } = Except.error GoPanic.interfaceConversion ∧
    GetService { provider := none } name = Except.error GoPanic.interfaceConversion ∧
    GetService { provider := some d } name = Except.ok none := by
  refine ⟨rfl, rfl, ?_⟩
  simp [GetService, GetServiceProvider, Daemon.GetService, hmiss]

theorem get_service_panics_without_provider_witness :
    GetService { provider := none } "x" = Except.error GoPanic.interfaceConversion ∧
    GetService { provider := some { services := [("a", SvcBeh.helper)] } } "x" =
      Except.ok none := by
  have h := get_service_panics_without_provider "x"
    { services := [("a", SvcBeh.helper)] } (by decide)
  exact ⟨h.2.1, h.2.2⟩

/-- Reachability of a configuration at the end of a concrete executable
step sequence. -/
theorem reach_of_trace (env : Env) (init : Config) (l : List Config) (c : Config)
    (hx : execOk env init l = true) (hc : c ∈ l) : Reach env init c :=
  reach_of_execOk Reach.refl hx c hc

/-- The configuration after the orchestrator thread takes its enabled step
(identity if it is blocked). -/
def afterMain (c : Config) : Config := ((mainStep c).map Prod.fst).getD c

/-- The configuration after slot `i`'s goroutine takes its enabled step
(identity if none is enabled). -/
def afterTask (c : Config) (i : Nat) : Config := ((taskStep c i).map Prod.fst).getD c

/-- The configuration after a SIGINT/SIGTERM is delivered. -/
def afterSig (c : Config) : Config := { c with sigDelivered := true }

/-- The configuration after the caller cancels the base context. -/
def afterCancel (c : Config) : Config := { c with baseCancelled := true }

/-- An environment that delivers no signal but does cancel the base context. -/
def envB : Env := { sig := false, cancel := true }

/-- A daemon with one helper-style service named "a". -/
def daemonA : Daemon := { services := [("a", SvcBeh.helper)] }

/-- Execution used against C2: start "a", block on the signal channel, set
the cancel trigger, cancel the base context, let "a" observe the
cancellation and finish. -/
def b1 : Config := afterMain (initConfig daemonA)
def b2 : Config := afterMain b1
def b3 : Config := afterMain b2
def b4 : Config := afterTask b3 0
def b5 : Config := afterCancel b4
def b6 : Config := afterTask b5 0
def b7 : Config := afterTask b6 0

/-- C2 counterexample: cancellation of the base context does not trigger the
shutdown sequence.  In a reachable configuration of the one-service daemon
the base context has been cancelled and the service has consequently
finished, yet the orchestrator is still blocked on the signal channel
(phase waiting, before any stopService call), and no machine step exists at
all: with no signal ever delivered, Run never fans out stop, never reaches
the join barrier and never returns. -/
theorem cancel_base_never_wakes_run :
    Reach envB (initConfig daemonA) b7 ∧
    b7.baseCancelled = true ∧
    b7.main = MainPhase.waiting ∧
    (b7.slots.all fun s => decide (s.task = TaskPhase.finished)) = true ∧
    nexts envB b7 = [] := by
  refine ⟨reach_of_trace envB (initConfig daemonA) [b1, b2, b3, b4, b5, b6, b7] b7 ?_ ?_,
    ?_, ?_, ?_, ?_⟩ <;> decide

/-- An environment that neither delivers a signal nor cancels the context. -/
def envQ : Env := { sig := false, cancel := false }

/-- A daemon with one service named "b" whose Run returns immediately with
a nil error. -/
def daemonB : Daemon := { services := [("b", SvcBeh.immediate none)] }

/-- Schedule exhibiting the WaitGroup bug: the goroutine spawned by the `go`
statement of line 125 runs to completion — including `wg.Done()` — before
the main thread executes `wg.Add(1)` on line 140. -/
def p1 : Config := afterMain (initConfig daemonB)
def p2 : Config := afterTask p1 0
def p3 : Config := afterTask p2 0

/-- C4: because `wg.Add(1)` (line 140) is executed only after the `go`
statement (line 125), the spawned task can call `wg.Done()` while the
counter is still 0.  Under this schedule the process reaches the panicked
state ("sync: negative WaitGroup counter"): the pending unit is not
registered with the join barrier before the run task is launched, contrary
to the documented startService contract. -/
theorem add_after_go_panics :
    Reach envQ (initConfig daemonB) p3 ∧ p3.main = MainPhase.panicked := by
  refine ⟨reach_of_trace envQ (initConfig daemonB) [p1, p2, p3] p3 ?_ ?_, ?_⟩ <;> decide

/-- Per-slot structural invariant: a slot whose goroutine was never started
has no cancel trigger and no recorded child cause; a finished slot has
status stopping (set on line 134 before `wg.Done()`) and a cleared trigger. -/
def basicP (s : Slot) : Prop :=
  (s.task = TaskPhase.notStarted → s.ctrl.hasStop = false ∧ s.childCause = none) ∧
  (s.task = TaskPhase.finished →
    s.ctrl.status = ServiceStatus.stopping ∧ s.ctrl.hasStop = false)

/-- Number of slots whose goroutine has been spawned. -/
def startedCount (l : List Slot) : Nat :=
  l.countP (fun s => decide (¬ s.task = TaskPhase.notStarted))

/-- Number of slots whose goroutine has called `wg.Done()`. -/
def finCount (l : List Slot) : Nat :=
  l.countP (fun s => decide (s.task = TaskPhase.finished))

/-- No slot from position `i` on has been started. -/
def noneStartedFrom (l : List Slot) (i : Nat) : Bool :=
  (l.drop i).all (fun s => decide (s.task = TaskPhase.notStarted))

theorem noneStartedFrom_iff {l : List Slot} {i : Nat} :
    noneStartedFrom l i = true ↔
      ∀ j s, i ≤ j → l[j]? = some s → s.task = TaskPhase.notStarted := by
  unfold noneStartedFrom
  rw [List.all_eq_true]
  constructor
  · intro h j s hij hjs
    have hms : s ∈ l.drop i := by
      rw [List.mem_iff_getElem?]
      refine ⟨j - i, ?_⟩
      rw [List.getElem?_drop, Nat.add_sub_cancel' hij]
      exact hjs
    simpa using h s hms
  · intro h s hs
    rw [List.mem_iff_getElem?] at hs
    obtain ⟨n, hn⟩ := hs
    rw [List.getElem?_drop] at hn
    simpa using h (i + n) s (Nat.le_add_right i n) hn

theorem lt_of_getElem?_some {l : List Slot} {i : Nat} {s : Slot}
    (h : l[i]? = some s) : i < l.length :=
  (List.getElem?_eq_some.mp h).1

theorem mem_of_getElem?_some {l : List Slot} {i : Nat} {s : Slot}
    (h : l[i]? = some s) : s ∈ l := by
  obtain ⟨h1, h2⟩ := List.getElem?_eq_some.mp h
  exact h2 ▸ List.getElem_mem h1

theorem countP_set_same {p : Slot → Bool} {l : List Slot} {i : Nat} {s a : Slot}
    (hs : l[i]? = some s) (hp : p a = p s) :
    (l.set i a).countP p = l.countP p := by
  obtain ⟨hlt, hget⟩ := List.getElem?_eq_some.mp hs
  rw [List.countP_set p l i a hlt, hget, hp]
  cases hpa : p s
  · simp [hpa]
  · have h1 : 1 ≤ l.countP p := by
      rw [Nat.one_le_iff_ne_zero]
      intro h0
      have h2 := List.countP_eq_zero.mp h0 s (mem_of_getElem?_some hs)
      simp [hpa] at h2
    simp only [hpa, if_true]
    omega

theorem countP_set_incr {p : Slot → Bool} {l : List Slot} {i : Nat} {s a : Slot}
    (hs : l[i]? = some s) (hps : p s = false) (hpa : p a = true) :
    (l.set i a).countP p = l.countP p + 1 := by
  obtain ⟨hlt, hget⟩ := List.getElem?_eq_some.mp hs
  rw [List.countP_set p l i a hlt, hget, hps, hpa]
  simp

theorem noneStartedFrom_get {l : List Slot} {i j : Nat} {s : Slot}
    (h : noneStartedFrom l i = true) (hij : i ≤ j) (hs : l[j]? = some s) :
    s.task = TaskPhase.notStarted :=
  (noneStartedFrom_iff.mp h) j s hij hs

theorem noneStartedFrom_set_task_eq {l : List Slot} {k i : Nat} {s a : Slot}
    (hs : l[k]? = some s) (ht : a.task = s.task)
    (h : noneStartedFrom l i = true) : noneStartedFrom (l.set k a) i = true := by
  rw [noneStartedFrom_iff] at h ⊢
  intro j x hij hjx
  by_cases hk : k = j
  · subst hk
    rw [List.getElem?_set_self (lt_of_getElem?_some hs)] at hjx
    injection hjx with h2
    rw [← h2, ht]
    exact h k s hij hs
  · rw [List.getElem?_set_ne hk] at hjx
    exact h j x hij hjx

theorem noneStartedFrom_set_started {l : List Slot} {k i : Nat} {s : Slot} (a : Slot)
    (hs : l[k]? = some s) (ht : ¬ s.task = TaskPhase.notStarted)
    (h : noneStartedFrom l i = true) : noneStartedFrom (l.set k a) i = true := by
  rw [noneStartedFrom_iff] at h ⊢
  intro j x hij hjx
  by_cases hk : k = j
  · subst hk
    exact absurd (h k s hij hs) ht
  · rw [List.getElem?_set_ne hk] at hjx
    exact h j x hij hjx

theorem noneStartedFrom_succ {l : List Slot} {k : Nat} {a : Slot}
    (h : noneStartedFrom l k = true) : noneStartedFrom (l.set k a) (k + 1) = true := by
  rw [noneStartedFrom_iff] at h ⊢
  intro j x hij hjx
  have hk : k ≠ j := by omega
  rw [List.getElem?_set_ne hk] at hjx
  exact h j x (by omega) hjx

theorem basicP_set {l : List Slot} {i : Nat} {a : Slot}
    (hb : ∀ s ∈ l, basicP s) (ha : basicP a) : ∀ s ∈ l.set i a, basicP s := by
  intro s hs
  rcases List.mem_or_eq_of_mem_set hs with h | h
  · exact hb s h
  · exact h ▸ ha

/-- The orchestrator is in its shutdown part: the stop fan-out loop, the
join barrier, or already returned. -/
def MainPhase.isShutdown : MainPhase → Bool
  | MainPhase.stopping _ => true
  | MainPhase.joining => true
  | MainPhase.returned => true
  | _ => false

/-- The orchestrator is in its startup part: the startup loop or the wait
for a termination signal. -/
def MainPhase.inStartup : MainPhase → Bool
  | MainPhase.starting _ => true
  | MainPhase.addBarrier _ => true
  | MainPhase.waiting => true
  | _ => false

/-- Control-location-indexed invariant: the ghost counter of `wg.Add` calls
tracks the startup loop index, spawned slots form an initial segment, and in
the shutdown phases every `wg.Add` belongs to a spawned slot; when the
startup loop completed without failure, every slot was spawned; `wg.Wait`
only returns with a zero counter. -/
def phaseInv (c : Config) : Prop :=
  match c.main with
  | MainPhase.starting i =>
      c.adds = i ∧ i ≤ c.slots.length ∧ startedCount c.slots = i ∧
        noneStartedFrom c.slots i = true
  | MainPhase.addBarrier i =>
      c.adds = i ∧ i < c.slots.length ∧ startedCount c.slots = i + 1 ∧
        noneStartedFrom c.slots (i + 1) = true
  | MainPhase.waiting =>
      c.adds = c.slots.length ∧ startedCount c.slots = c.adds
  | MainPhase.stopping _ =>
      startedCount c.slots = c.adds ∧ (c.failIdx = none → c.adds = c.slots.length)
  | MainPhase.joining =>
      startedCount c.slots = c.adds ∧ (c.failIdx = none → c.adds = c.slots.length)
  | MainPhase.returned =>
      startedCount c.slots = c.adds ∧ (c.failIdx = none → c.adds = c.slots.length) ∧
        c.wg = 0
  | MainPhase.panicked => True

/-- The machine invariant, preserved by every step. -/
structure MachineInv (c : Config) : Prop where
  slotBasic : ∀ s ∈ c.slots, basicP s
  wgEq : c.main ≠ MainPhase.panicked → c.wg + finCount c.slots = c.adds
  phase : phaseInv c
  sigNeeded : c.main.isShutdown = true → c.sigDelivered = true ∨ c.failIdx ≠ none
  failFacts : ∀ i, c.failIdx = some i →
      noneStartedFrom c.slots i = true ∧ c.main.inStartup = false

theorem stopService_task (s : Slot) (b : Bool) : (s.stopService b).task = s.task := by
  unfold Slot.stopService
  split <;> rfl

theorem stopService_status (s : Slot) (b : Bool) :
    (s.stopService b).ctrl.status = s.ctrl.status := by
  unfold Slot.stopService
  split <;> rfl

theorem basicP_stopService {s : Slot} (b : Bool) (h : basicP s) :
    basicP (s.stopService b) := by
  by_cases hs : s.ctrl.hasStop = true
  · constructor
    · intro hx
      rw [stopService_task] at hx
      exact absurd (h.1 hx).1 (by simp [hs])
    · intro hx
      rw [stopService_task] at hx
      exact absurd (h.2 hx).2 (by simp [hs])
  · have he : s.stopService b = s := by
      unfold Slot.stopService
      simp [hs]
    rw [he]
    exact h

theorem startService_down {c : ServiceController} (ctx : Nat)
    (h : c.status = ServiceStatus.down) :
    c.startService ctx =
      ({ c with ctxId := ctx, status := ServiceStatus.starting }, none) := by
  simp [ServiceController.startService, h]

theorem startService_not_down {c : ServiceController} (ctx : Nat)
    (h : ¬ c.status = ServiceStatus.down) :
    c.startService ctx = ({ c with ctxId := ctx }, some c.status) := by
  simp [ServiceController.startService, h]

theorem phaseInv_congr {c c1 : Config}
    (hmain : c1.main = c.main) (hadds : c1.adds = c.adds)
    (hwg : c.wg = 0 → c1.wg = 0)
    (hfail : c1.failIdx = c.failIdx) (hlen : c1.slots.length = c.slots.length)
    (hcount : startedCount c1.slots = startedCount c.slots)
    (hnone : ∀ k, noneStartedFrom c.slots k = true → noneStartedFrom c1.slots k = true)
    (h : phaseInv c) : phaseInv c1 := by
  unfold phaseInv at h ⊢
  rw [hmain]
  cases hm2 : c.main with
  | starting i =>
    rw [hm2] at h
    obtain ⟨h1, h2, h3, h4⟩ := h
    exact ⟨by rw [hadds, h1], by rw [hlen]; exact h2, by rw [hcount, h3], hnone i h4⟩
  | addBarrier i =>
    rw [hm2] at h
    obtain ⟨h1, h2, h3, h4⟩ := h
    exact ⟨by rw [hadds, h1], by rw [hlen]; exact h2, by rw [hcount, h3], hnone (i + 1) h4⟩
  | waiting =>
    rw [hm2] at h
    obtain ⟨h1, h2⟩ := h
    exact ⟨by rw [hadds, hlen, h1], by rw [hcount, hadds, h2]⟩
  | stopping i =>
    rw [hm2] at h
    obtain ⟨h1, h2⟩ := h
    refine ⟨by rw [hcount, hadds, h1], ?_⟩
    intro hx
    rw [hadds, hlen]
    exact h2 (by rw [← hfail, hx])
  | joining =>
    rw [hm2] at h
    obtain ⟨h1, h2⟩ := h
    refine ⟨by rw [hcount, hadds, h1], ?_⟩
    intro hx
    rw [hadds, hlen]
    exact h2 (by rw [← hfail, hx])
  | returned =>
    rw [hm2] at h
    obtain ⟨h1, h2, h3⟩ := h
    refine ⟨by rw [hcount, hadds, h1], ?_, hwg h3⟩
    intro hx
    rw [hadds, hlen]
    exact h2 (by rw [← hfail, hx])
  | panicked => exact trivial

theorem machineInv_setSlots {c : Config} {i : Nat} {s a : Slot}
    (hI : MachineInv c) (hg : c.slots[i]? = some s)
    (hba : basicP a)
    (hfin : decide (a.task = TaskPhase.finished) = decide (s.task = TaskPhase.finished))
    (hstart : decide (¬ a.task = TaskPhase.notStarted) =
      decide (¬ s.task = TaskPhase.notStarted))
    (hnone : ∀ k, noneStartedFrom c.slots k = true →
      noneStartedFrom (c.slots.set i a) k = true) :
    MachineInv { c with slots := c.slots.set i a } := by
  obtain ⟨hB, hW, hP, hS, hF⟩ := hI
  refine ⟨?_, ?_, ?_, ?_, ?_⟩
  · exact basicP_set hB hba
  · intro hx
    show c.wg + finCount (c.slots.set i a) = c.adds
    have he : finCount (c.slots.set i a) = finCount c.slots := countP_set_same hg hfin
    rw [he]
    exact hW hx
  · exact @phaseInv_congr c { c with slots := c.slots.set i a } rfl rfl (fun h0 => h0) rfl
      (List.length_set c.slots i a) (countP_set_same hg hstart) hnone hP
  · exact hS
  · intro i0 hf0
    obtain ⟨h1, h2⟩ := hF i0 hf0
    exact ⟨hnone i0 h1, h2⟩

theorem inv_trigSetStep {c c1 : Config} {i : Nat}
    (hI : MachineInv c) (h : trigSetStep c i = some c1) : MachineInv c1 := by
  unfold trigSetStep at h
  split at h
  next s heq =>
    split at h
    next ht =>
      injection h with h1
      subst h1
      have hne : ¬ s.task = TaskPhase.notStarted := by
        rw [ht]
        exact fun hx => nomatch hx
      exact machineInv_setSlots hI heq
        ⟨fun hx => (nomatch hx), fun hx => (nomatch hx)⟩
        (by simp [ht]) (by simp [ht])
        (fun k hk => noneStartedFrom_set_started _ heq hne hk)
    next ht => cases h
  next heq => cases h

theorem inv_svcUpStep {c c1 : Config} {lg : List LogEvent} {i : Nat}
    (hI : MachineInv c) (h : svcUpStep c i = some (c1, lg)) : MachineInv c1 := by
  unfold svcUpStep at h
  split at h
  next s heq =>
    split at h
    next hcond =>
      injection h with h1
      have hc1 : ({ c with slots := (c.slots.set i
          { s with ctrl := s.ctrl.Up, upCalled := true }) } : Config) = c1 :=
        congrArg Prod.fst h1
      subst hc1
      have hne : ¬ s.task = TaskPhase.notStarted := by
        rw [hcond.1]
        exact fun hx => nomatch hx
      exact machineInv_setSlots hI heq
        ⟨fun hx => absurd hx hne, fun hx => by
          rw [hcond.1] at hx
          exact nomatch hx⟩
        rfl rfl
        (fun k hk => noneStartedFrom_set_started _ heq hne hk)
    next hcond => cases h
  next heq => cases h

theorem basicP_finishedSlot (s : Slot) : basicP (finishedSlot s) :=
  ⟨fun hx => (nomatch hx), fun _ => ⟨rfl, rfl⟩⟩

theorem inv_finishStep {c c1 : Config} {lg : List LogEvent} {i : Nat}
    (hI : MachineInv c) (h : finishStep c i = some (c1, lg)) : MachineInv c1 := by
  unfold finishStep at h
  split at h
  next s heq =>
    split at h
    next ht =>
      split at h
      next err hres =>
        have hne : ¬ s.task = TaskPhase.notStarted := by
          rw [ht]
          exact fun hx => nomatch hx
        obtain ⟨hB, hW, hP, hS, hF⟩ := hI
        split at h
        next hwg0 =>
          injection h with h1
          have hc1 : ({ c with
              slots := c.slots.set i (finishedSlot s),
              main := MainPhase.panicked } : Config) = c1 := congrArg Prod.fst h1
          subst hc1
          refine ⟨?_, ?_, ?_, ?_, ?_⟩
          · exact basicP_set hB (basicP_finishedSlot s)
          · intro hx
            exact absurd rfl hx
          · exact trivial
          · intro hx
            exact Bool.noConfusion hx
          · intro i0 hf0
            obtain ⟨h1, h2⟩ := hF i0 hf0
            exact ⟨noneStartedFrom_set_started _ heq hne h1, rfl⟩
        next hwg0 =>
          injection h with h1
          have hc1 : ({ c with
              slots := c.slots.set i (finishedSlot s),
              wg := c.wg - 1 } : Config) = c1 := congrArg Prod.fst h1
          subst hc1
          refine ⟨?_, ?_, ?_, ?_, ?_⟩
          · exact basicP_set hB (basicP_finishedSlot s)
          · intro hx
            show c.wg - 1 + finCount (c.slots.set i (finishedSlot s)) = c.adds
            have he : finCount (c.slots.set i (finishedSlot s)) = finCount c.slots + 1 :=
              countP_set_incr heq (by simp [ht]) rfl
            have hw := hW hx
            omega
          · exact @phaseInv_congr c { c with
                slots := c.slots.set i (finishedSlot s),
                wg := c.wg - 1 } rfl rfl (fun h0 => absurd h0 hwg0) rfl
              (List.length_set c.slots i (finishedSlot s))
              (countP_set_same heq (by simp [finishedSlot, ht]))
              (fun k hk => noneStartedFrom_set_started _ heq hne hk) hP
          · exact hS
          · intro i0 hf0
            obtain ⟨h1, h2⟩ := hF i0 hf0
            exact ⟨noneStartedFrom_set_started _ heq hne h1, h2⟩
      next hres => cases h
    next ht => cases h
  next heq => cases h

theorem inv_taskStep {c c1 : Config} {lg : List LogEvent} {i : Nat}
    (hI : MachineInv c) (h : taskStep c i = some (c1, lg)) : MachineInv c1 := by
  unfold taskStep at h
  split at h
  next cx htr =>
    injection h with h1
    have hc1 : cx = c1 := congrArg Prod.fst h1
    exact hc1 ▸ inv_trigSetStep hI htr
  next htr =>
    split at h
    next r hup =>
      injection h with h1
      subst h1
      exact inv_svcUpStep hI hup
    next hup =>
      exact inv_finishStep hI h

theorem inv_envSteps {env : Env} {c c1 : Config}
    (hI : MachineInv c) (h : c1 ∈ envSteps env c) : MachineInv c1 := by
  obtain ⟨hB, hW, hP, hS, hF⟩ := hI
  unfold envSteps at h
  rw [List.mem_append] at h
  rcases h with h | h
  · split at h
    · rw [List.mem_singleton] at h
      subst h
      exact ⟨hB, hW, hP, fun _ => Or.inl rfl, hF⟩
    · cases h
  · split at h
    · rw [List.mem_singleton] at h
      subst h
      exact ⟨hB, hW, hP, hS, hF⟩
    · cases h

theorem machineInv_guardFail {c : Config} {i : Nat} {s : Slot} (a : Slot)
    (hg : c.slots[i]? = some s) (hm : c.main = MainPhase.starting i)
    (hI : MachineInv c) (htask : a.task = s.task) (hbasic : basicP a) :
    MachineInv { c with
      slots := c.slots.set i a,
      failIdx := some i,
      main := MainPhase.stopping 0 } := by
  obtain ⟨hB, hW, hP, hS, hF⟩ := hI
  simp only [phaseInv, hm] at hP
  obtain ⟨hadds, hlen, hcount, hnone⟩ := hP
  refine ⟨?_, ?_, ?_, ?_, ?_⟩
  · exact basicP_set hB hbasic
  · intro _
    show c.wg + finCount (c.slots.set i a) = c.adds
    have he : finCount (c.slots.set i a) = finCount c.slots :=
      countP_set_same hg (by rw [htask])
    rw [he]
    exact hW (by rw [hm]; exact fun hx => (nomatch hx))
  · show startedCount (c.slots.set i a) = c.adds ∧
      ((some i : Option Nat) = none → c.adds = (c.slots.set i a).length)
    constructor
    · have he : startedCount (c.slots.set i a) = startedCount c.slots :=
        countP_set_same hg (by simp [htask])
      rw [he, hcount, hadds]
    · intro hx
      exact (nomatch hx)
  · intro _
    exact Or.inr (fun hx => (nomatch hx))
  · intro i0 hf0
    have hii : i = i0 := by injection hf0
    subst hii
    exact ⟨noneStartedFrom_set_task_eq hg htask hnone, rfl⟩

theorem machineInv_guardOk {c : Config} {i : Nat} {s : Slot} (a : Slot)
    (hg : c.slots[i]? = some s) (hm : c.main = MainPhase.starting i)
    (hI : MachineInv c) (htask : a.task = TaskPhase.spawned) :
    MachineInv { c with
      slots := c.slots.set i a,
      main := MainPhase.addBarrier i } := by
  obtain ⟨hB, hW, hP, hS, hF⟩ := hI
  simp only [phaseInv, hm] at hP
  obtain ⟨hadds, hlen, hcount, hnone⟩ := hP
  have hsn : s.task = TaskPhase.notStarted := noneStartedFrom_get hnone (Nat.le_refl i) hg
  refine ⟨?_, ?_, ?_, ?_, ?_⟩
  · refine basicP_set hB ⟨?_, ?_⟩
    · intro hx
      rw [htask] at hx
      exact absurd hx (by decide)
    · intro hx
      rw [htask] at hx
      exact absurd hx (by decide)
  · intro _
    show c.wg + finCount (c.slots.set i a) = c.adds
    have he : finCount (c.slots.set i a) = finCount c.slots :=
      countP_set_same hg (by simp [htask, hsn])
    rw [he]
    exact hW (by rw [hm]; exact fun hx => (nomatch hx))
  · show c.adds = i ∧ i < (c.slots.set i a).length ∧
      startedCount (c.slots.set i a) = i + 1 ∧
      noneStartedFrom (c.slots.set i a) (i + 1) = true
    refine ⟨hadds, ?_, ?_, noneStartedFrom_succ hnone⟩
    · rw [List.length_set]
      exact lt_of_getElem?_some hg
    · have he : startedCount (c.slots.set i a) = startedCount c.slots + 1 :=
        countP_set_incr hg (by simp [hsn]) (by simp [htask])
      rw [he, hcount]
  · intro hx
    exact Bool.noConfusion hx
  · intro i0 hf0
    have h2 := (hF i0 hf0).2
    rw [hm] at h2
    exact Bool.noConfusion h2

theorem inv_mainStep {c c1 : Config} {lg : List LogEvent}
    (hI : MachineInv c) (h : mainStep c = some (c1, lg)) : MachineInv c1 := by
  unfold mainStep at h
  split at h
  next i hm =>
    split at h
    next s heq =>
      split at h
      next st hr =>
        by_cases hd : s.ctrl.status = ServiceStatus.down
        · rw [startService_down c.baseCtx hd] at hr
          simp at hr
        · rw [startService_not_down c.baseCtx hd] at h
          injection h with h1
          injection h1 with h2 h3
          subst h2
          exact machineInv_guardFail _ heq hm hI rfl
            (hI.slotBasic s (mem_of_getElem?_some heq))
      next hr =>
        injection h with h1
        injection h1 with h2 h3
        subst h2
        exact machineInv_guardOk _ heq hm hI rfl
    next heq =>
      injection h with h1
      injection h1 with h2 h3
      subst h2
      obtain ⟨hB, hW, hP, hS, hF⟩ := hI
      simp only [phaseInv, hm] at hP
      obtain ⟨hadds, hlen, hcount, hnone⟩ := hP
      have hge : c.slots.length ≤ i := List.getElem?_eq_none_iff.mp heq
      refine ⟨hB, ?_, ?_, ?_, ?_⟩
      · intro _
        exact hW (by rw [hm]; exact fun hx => (nomatch hx))
      · show c.adds = c.slots.length ∧ startedCount c.slots = c.adds
        exact ⟨by omega, by omega⟩
      · intro hx
        exact Bool.noConfusion hx
      · intro i0 hf0
        have h2 := (hF i0 hf0).2
        rw [hm] at h2
        exact Bool.noConfusion h2
  next i hm =>
    injection h with h1
    injection h1 with h2 h3
    subst h2
    obtain ⟨hB, hW, hP, hS, hF⟩ := hI
    simp only [phaseInv, hm] at hP
    obtain ⟨hadds, hlt, hcount, hnone⟩ := hP
    have hW2 := hW (by rw [hm]; exact fun hx => (nomatch hx))
    refine ⟨hB, ?_, ?_, ?_, ?_⟩
    · intro _
      show c.wg + 1 + finCount c.slots = c.adds + 1
      omega
    · show c.adds + 1 = i + 1 ∧ i + 1 ≤ c.slots.length ∧ startedCount c.slots = i + 1 ∧
        noneStartedFrom c.slots (i + 1) = true
      exact ⟨by omega, by omega, hcount, hnone⟩
    · intro hx
      exact Bool.noConfusion hx
    · intro i0 hf0
      have h2 := (hF i0 hf0).2
      rw [hm] at h2
      exact Bool.noConfusion h2
  next hm =>
    split at h
    next hsig =>
      injection h with h1
      injection h1 with h2 h3
      subst h2
      obtain ⟨hB, hW, hP, hS, hF⟩ := hI
      simp only [phaseInv, hm] at hP
      obtain ⟨hadds, hcount⟩ := hP
      refine ⟨hB, ?_, ?_, ?_, ?_⟩
      · intro _
        exact hW (by rw [hm]; exact fun hx => (nomatch hx))
      · show startedCount c.slots = c.adds ∧ (c.failIdx = none → c.adds = c.slots.length)
        exact ⟨hcount, fun _ => hadds⟩
      · intro _
        exact Or.inl hsig
      · intro i0 hf0
        have h2 := (hF i0 hf0).2
        rw [hm] at h2
        exact Bool.noConfusion h2
    next hsig => cases h
  next i hm =>
    split at h
    next s heq =>
      injection h with h1
      injection h1 with h2 h3
      subst h2
      obtain ⟨hB, hW, hP, hS, hF⟩ := hI
      simp only [phaseInv, hm] at hP
      obtain ⟨hcount, hflen⟩ := hP
      refine ⟨?_, ?_, ?_, ?_, ?_⟩
      · exact basicP_set hB (basicP_stopService _ (hB s (mem_of_getElem?_some heq)))
      · intro _
        show c.wg + finCount (c.slots.set i (s.stopService c.baseCancelled)) = c.adds
        have he : finCount (c.slots.set i (s.stopService c.baseCancelled)) =
            finCount c.slots := countP_set_same heq (by rw [stopService_task])
        rw [he]
        exact hW (by rw [hm]; exact fun hx => (nomatch hx))
      · show startedCount (c.slots.set i (s.stopService c.baseCancelled)) = c.adds ∧
          (c.failIdx = none → c.adds = (c.slots.set i (s.stopService c.baseCancelled)).length)
        constructor
        · have he : startedCount (c.slots.set i (s.stopService c.baseCancelled)) =
              startedCount c.slots := countP_set_same heq (by simp [stopService_task])
          rw [he]
          exact hcount
        · intro hx
          rw [List.length_set]
          exact hflen hx
      · intro _
        exact hS (by rw [hm]; rfl)
      · intro i0 hf0
        obtain ⟨hn1, _⟩ := hF i0 hf0
        exact ⟨noneStartedFrom_set_task_eq heq (stopService_task s c.baseCancelled) hn1, rfl⟩
    next heq =>
      injection h with h1
      injection h1 with h2 h3
      subst h2
      obtain ⟨hB, hW, hP, hS, hF⟩ := hI
      simp only [phaseInv, hm] at hP
      refine ⟨hB, ?_, ?_, ?_, ?_⟩
      · intro _
        exact hW (by rw [hm]; exact fun hx => (nomatch hx))
      · show startedCount c.slots = c.adds ∧ (c.failIdx = none → c.adds = c.slots.length)
        exact hP
      · intro _
        exact hS (by rw [hm]; rfl)
      · intro i0 hf0
        exact ⟨(hF i0 hf0).1, rfl⟩
  next hm =>
    split at h
    next hwg =>
      injection h with h1
      injection h1 with h2 h3
      subst h2
      obtain ⟨hB, hW, hP, hS, hF⟩ := hI
      simp only [phaseInv, hm] at hP
      refine ⟨hB, ?_, ?_, ?_, ?_⟩
      · intro _
        exact hW (by rw [hm]; exact fun hx => (nomatch hx))
      · show startedCount c.slots = c.adds ∧
          (c.failIdx = none → c.adds = c.slots.length) ∧ c.wg = 0
        exact ⟨hP.1, hP.2, hwg⟩
      · intro _
        exact hS (by rw [hm]; rfl)
      · intro i0 hf0
        exact ⟨(hF i0 hf0).1, rfl⟩
    next hwg => cases h
  next hm => cases h
  next hm => cases h

theorem inv_step {env : Env} {c c1 : Config}
    (hI : MachineInv c) (h : c1 ∈ nexts env c) : MachineInv c1 := by
  unfold nexts at h
  split at h
  · cases h
  · rw [List.mem_append, List.mem_append] at h
    rcases h with (h | h) | h
    · rw [List.mem_map] at h
      obtain ⟨x, hx, hx1⟩ := h
      cases hmm : mainStep c with
      | none =>
        rw [hmm] at hx
        cases hx
      | some v =>
        rw [hmm] at hx
        obtain ⟨v1, v2⟩ := v
        rw [Option.toList_some, List.mem_singleton] at hx
        subst hx
        subst hx1
        exact inv_mainStep hI hmm
    · rw [List.mem_filterMap] at h
      obtain ⟨j, _, hjs⟩ := h
      cases hts : taskStep c j with
      | none =>
        rw [hts] at hjs
        cases hjs
      | some v =>
        rw [hts] at hjs
        obtain ⟨v1, v2⟩ := v
        simp only [Option.map_some'] at hjs
        injection hjs with hv
        subst hv
        exact inv_taskStep hI hts
    · exact inv_envSteps hI h

theorem inv_reach {env : Env} {init c : Config}
    (h : Reach env init c) (h0 : MachineInv init) : MachineInv c := by
  induction h with
  | refl => exact h0
  | step hr hs ih => exact inv_step ih hs

theorem noneStartedFrom_of_all (l : List Slot)
    (h : ∀ s ∈ l, s.task = TaskPhase.notStarted) (k : Nat) :
    noneStartedFrom l k = true := by
  rw [noneStartedFrom_iff]
  intro j s _ hjs
  exact h s (mem_of_getElem?_some hjs)

theorem machineInv_init {c : Config}
    (hall : ∀ s ∈ c.slots, s.task = TaskPhase.notStarted ∧ s.ctrl.hasStop = false ∧
      s.childCause = none)
    (hmain : c.main = MainPhase.starting 0) (hwg : c.wg = 0) (hadds : c.adds = 0)
    (hfail : c.failIdx = none) : MachineInv c := by
  refine ⟨?_, ?_, ?_, ?_, ?_⟩
  · intro s hs
    obtain ⟨h1, h2, h3⟩ := hall s hs
    refine ⟨fun _ => ⟨h2, h3⟩, fun hx => ?_⟩
    rw [h1] at hx
    exact absurd hx (by decide)
  · intro _
    have hf : finCount c.slots = 0 := by
      rw [finCount, List.countP_eq_zero]
      intro a ha
      have := (hall a ha).1
      simp [this]
    omega
  · have hs : startedCount c.slots = 0 := by
      rw [startedCount, List.countP_eq_zero]
      intro a ha
      have := (hall a ha).1
      simp [this]
    unfold phaseInv
    rw [hmain]
    exact ⟨hadds, Nat.zero_le _, hs, noneStartedFrom_of_all _ (fun s h1 => (hall s h1).1) 0⟩
  · intro hx
    rw [hmain] at hx
    exact Bool.noConfusion hx
  · intro i0 hf0
    rw [hfail] at hf0
    exact (nomatch hf0)

theorem machineInv_initConfig (d : Daemon) : MachineInv (initConfig d) := by
  refine machineInv_init ?_ rfl rfl rfl rfl
  intro s hs
  simp only [initConfig, List.mem_map] at hs
  obtain ⟨p, _, hp⟩ := hs
  subst hp
  exact ⟨rfl, rfl, rfl⟩

theorem machineInv_initFrom (l : List (String × ServiceStatus × SvcBeh)) :
    MachineInv (initFrom l) := by
  refine machineInv_init ?_ rfl rfl rfl rfl
  intro s hs
  simp only [initFrom, List.mem_map] at hs
  obtain ⟨p, _, hp⟩ := hs
  subst hp
  exact ⟨rfl, rfl, rfl⟩

/-- States in which every never-started controller is still down and no
startup failure has been recorded — the situation of a daemon whose
controllers all start out down, as `AddService` creates them. -/
def allDownInv (c : Config) : Prop :=
  c.failIdx = none ∧
  ∀ s ∈ c.slots, s.task = TaskPhase.notStarted → s.ctrl.status = ServiceStatus.down

theorem allDownSlots_set {l : List Slot} {i : Nat} {a : Slot}
    (h : ∀ s ∈ l, s.task = TaskPhase.notStarted → s.ctrl.status = ServiceStatus.down)
    (ha : a.task = TaskPhase.notStarted → a.ctrl.status = ServiceStatus.down) :
    ∀ s ∈ l.set i a, s.task = TaskPhase.notStarted →
      s.ctrl.status = ServiceStatus.down := by
  intro s hs
  rcases List.mem_or_eq_of_mem_set hs with hx | hx
  · exact h s hx
  · exact hx ▸ ha

theorem allDown_mainStep {c c1 : Config} {lg : List LogEvent}
    (hI : MachineInv c) (hA : allDownInv c) (h : mainStep c = some (c1, lg)) :
    allDownInv c1 := by
  obtain ⟨hfail, hdown⟩ := hA
  unfold mainStep at h
  split at h
  next i hm =>
    split at h
    next s heq =>
      have hsn : s.task = TaskPhase.notStarted := by
        have hP := hI.phase
        simp only [phaseInv, hm] at hP
        exact noneStartedFrom_get hP.2.2.2 (Nat.le_refl i) heq
      have hd : s.ctrl.status = ServiceStatus.down :=
        hdown s (mem_of_getElem?_some heq) hsn
      split at h
      next st hr =>
        rw [startService_down c.baseCtx hd] at hr
        simp at hr
      next hr =>
        injection h with h1
        injection h1 with h2 h3
        subst h2
        exact ⟨hfail, allDownSlots_set hdown (fun hx => (nomatch hx))⟩
    next heq =>
      injection h with h1
      injection h1 with h2 h3
      subst h2
      exact ⟨hfail, hdown⟩
  next i hm =>
    injection h with h1
    injection h1 with h2 h3
    subst h2
    exact ⟨hfail, hdown⟩
  next hm =>
    split at h
    next hsig =>
      injection h with h1
      injection h1 with h2 h3
      subst h2
      exact ⟨hfail, hdown⟩
    next hsig => cases h
  next i hm =>
    split at h
    next s heq =>
      injection h with h1
      injection h1 with h2 h3
      subst h2
      refine ⟨hfail, allDownSlots_set hdown ?_⟩
      intro hx
      rw [stopService_task] at hx
      rw [stopService_status]
      exact hdown s (mem_of_getElem?_some heq) hx
    next heq =>
      injection h with h1
      injection h1 with h2 h3
      subst h2
      exact ⟨hfail, hdown⟩
  next hm =>
    split at h
    next hwg =>
      injection h with h1
      injection h1 with h2 h3
      subst h2
      exact ⟨hfail, hdown⟩
    next hwg => cases h
  next hm => cases h
  next hm => cases h

theorem allDown_taskStep {c c1 : Config} {lg : List LogEvent} {i : Nat}
    (hA : allDownInv c) (h : taskStep c i = some (c1, lg)) : allDownInv c1 := by
  obtain ⟨hfail, hdown⟩ := hA
  unfold taskStep at h
  split at h
  next cx htr =>
    injection h with h1
    have hc1 : cx = c1 := congrArg Prod.fst h1
    subst hc1
    unfold trigSetStep at htr
    split at htr
    next s heq =>
      split at htr
      next ht =>
        injection htr with h2
        subst h2
        exact ⟨hfail, allDownSlots_set hdown (fun hx => (nomatch hx))⟩
      next ht => cases htr
    next heq => cases htr
  next htr =>
    split at h
    next r hup =>
      injection h with h1
      subst h1
      unfold svcUpStep at hup
      split at hup
      next s heq =>
        split at hup
        next hcond =>
          injection hup with h2
          have hc1 : ({ c with slots := (c.slots.set i
              { s with ctrl := s.ctrl.Up, upCalled := true }) } : Config) = c1 :=
            congrArg Prod.fst h2
          subst hc1
          refine ⟨hfail, allDownSlots_set hdown ?_⟩
          intro hx
          have hx2 : s.task = TaskPhase.notStarted := hx
          rw [hcond.1] at hx2
          exact (nomatch hx2)
        next hcond => cases hup
      next heq => cases hup
    next hup =>
      unfold finishStep at h
      split at h
      next s heq =>
        split at h
        next ht =>
          split at h
          next err hres =>
            split at h
            next hwg0 =>
              injection h with h1
              injection h1 with h2 h3
              subst h2
              exact ⟨hfail, allDownSlots_set hdown (fun hx => (nomatch hx))⟩
            next hwg0 =>
              injection h with h1
              injection h1 with h2 h3
              subst h2
              exact ⟨hfail, allDownSlots_set hdown (fun hx => (nomatch hx))⟩
          next hres => cases h
        next ht => cases h
      next heq => cases h

theorem allDown_envSteps {env : Env} {c c1 : Config}
    (hA : allDownInv c) (h : c1 ∈ envSteps env c) : allDownInv c1 := by
  obtain ⟨hfail, hdown⟩ := hA
  unfold envSteps at h
  rw [List.mem_append] at h
  rcases h with h | h
  · split at h
    · rw [List.mem_singleton] at h
      subst h
      exact ⟨hfail, hdown⟩
    · cases h
  · split at h
    · rw [List.mem_singleton] at h
      subst h
      exact ⟨hfail, hdown⟩
    · cases h

theorem allDown_step {env : Env} {c c1 : Config}
    (hI : MachineInv c) (hA : allDownInv c) (h : c1 ∈ nexts env c) : allDownInv c1 := by
  unfold nexts at h
  split at h
  · cases h
  · rw [List.mem_append, List.mem_append] at h
    rcases h with (h | h) | h
    · rw [List.mem_map] at h
      obtain ⟨x, hx, hx1⟩ := h
      cases hmm : mainStep c with
      | none =>
        rw [hmm] at hx
        cases hx
      | some v =>
        rw [hmm] at hx
        obtain ⟨v1, v2⟩ := v
        rw [Option.toList_some, List.mem_singleton] at hx
        subst hx
        subst hx1
        exact allDown_mainStep hI hA hmm
    · rw [List.mem_filterMap] at h
      obtain ⟨j, _, hjs⟩ := h
      cases hts : taskStep c j with
      | none =>
        rw [hts] at hjs
        cases hjs
      | some v =>
        rw [hts] at hjs
        obtain ⟨v1, v2⟩ := v
        simp only [Option.map_some'] at hjs
        injection hjs with hv
        subst hv
        exact allDown_taskStep hA hts
    · exact allDown_envSteps hA h

theorem allDown_reach {env : Env} {init c : Config}
    (h : Reach env init c) (h0 : MachineInv init) (hA : allDownInv init) :
    MachineInv c ∧ allDownInv c := by
  induction h with
  | refl => exact ⟨h0, hA⟩
  | step hr hs ih => exact ⟨inv_step ih.1 hs, allDown_step ih.1 ih.2 hs⟩

theorem allDown_initConfig (d : Daemon) : allDownInv (initConfig d) := by
  refine ⟨rfl, ?_⟩
  intro s hs _
  simp only [initConfig, List.mem_map] at hs
  obtain ⟨p, _, hp⟩ := hs
  subst hp
  rfl

theorem mainStep_sig {c c1 : Config} {lg : List LogEvent}
    (h : mainStep c = some (c1, lg)) : c1.sigDelivered = c.sigDelivered := by
  unfold mainStep at h
  split at h
  next i hm =>
    split at h
    next s heq =>
      split at h
      next st hr =>
        injection h with h1
        injection h1 with h2 h3
        subst h2
        rfl
      next hr =>
        injection h with h1
        injection h1 with h2 h3
        subst h2
        rfl
    next heq =>
      injection h with h1
      injection h1 with h2 h3
      subst h2
      rfl
  next i hm =>
    injection h with h1
    injection h1 with h2 h3
    subst h2
    rfl
  next hm =>
    split at h
    next hsig =>
      injection h with h1
      injection h1 with h2 h3
      subst h2
      rfl
    next hsig => cases h
  next i hm =>
    split at h
    next s heq =>
      injection h with h1
      injection h1 with h2 h3
      subst h2
      rfl
    next heq =>
      injection h with h1
      injection h1 with h2 h3
      subst h2
      rfl
  next hm =>
    split at h
    next hwg =>
      injection h with h1
      injection h1 with h2 h3
      subst h2
      rfl
    next hwg => cases h
  next hm => cases h
  next hm => cases h

theorem taskStep_sig {c c1 : Config} {lg : List LogEvent} {i : Nat}
    (h : taskStep c i = some (c1, lg)) : c1.sigDelivered = c.sigDelivered := by
  unfold taskStep at h
  split at h
  next cx htr =>
    injection h with h1
    have hc1 : cx = c1 := congrArg Prod.fst h1
    subst hc1
    unfold trigSetStep at htr
    split at htr
    next s heq =>
      split at htr
      next ht =>
        injection htr with h2
        subst h2
        rfl
      next ht => cases htr
    next heq => cases htr
  next htr =>
    split at h
    next r hup =>
      injection h with h1
      subst h1
      unfold svcUpStep at hup
      split at hup
      next s heq =>
        split at hup
        next hcond =>
          injection hup with h2
          have hc1 : ({ c with slots := (c.slots.set i
              { s with ctrl := s.ctrl.Up, upCalled := true }) } : Config) = c1 :=
            congrArg Prod.fst h2
          subst hc1
          rfl
        next hcond => cases hup
      next heq => cases hup
    next hup =>
      unfold finishStep at h
      split at h
      next s heq =>
        split at h
        next ht =>
          split at h
          next err hres =>
            split at h
            next hwg0 =>
              injection h with h1
              injection h1 with h2 h3
              subst h2
              rfl
            next hwg0 =>
              injection h with h1
              injection h1 with h2 h3
              subst h2
              rfl
          next hres => cases h
        next ht => cases h
      next heq => cases h

theorem envSteps_sig {env : Env} {c c1 : Config} (hsig : env.sig = false)
    (h : c1 ∈ envSteps env c) : c1.sigDelivered = c.sigDelivered := by
  unfold envSteps at h
  rw [List.mem_append] at h
  rcases h with h | h
  · split at h
    next hc =>
      rw [hsig] at hc
      exact absurd hc.1 (by simp)
    next hc => cases h
  · split at h
    next hc =>
      rw [List.mem_singleton] at h
      subst h
      rfl
    next hc => cases h

theorem sig_false_step {env : Env} {c c1 : Config} (hsig : env.sig = false)
    (h : c1 ∈ nexts env c) : c1.sigDelivered = c.sigDelivered := by
  unfold nexts at h
  split at h
  · cases h
  · rw [List.mem_append, List.mem_append] at h
    rcases h with (h | h) | h
    · rw [List.mem_map] at h
      obtain ⟨x, hx, hx1⟩ := h
      cases hmm : mainStep c with
      | none =>
        rw [hmm] at hx
        cases hx
      | some v =>
        rw [hmm] at hx
        obtain ⟨v1, v2⟩ := v
        rw [Option.toList_some, List.mem_singleton] at hx
        subst hx
        subst hx1
        exact mainStep_sig hmm
    · rw [List.mem_filterMap] at h
      obtain ⟨j, _, hjs⟩ := h
      cases hts : taskStep c j with
      | none =>
        rw [hts] at hjs
        cases hjs
      | some v =>
        rw [hts] at hjs
        obtain ⟨v1, v2⟩ := v
        simp only [Option.map_some'] at hjs
        injection hjs with hv
        subst hv
        exact taskStep_sig hts
    · exact envSteps_sig hsig h

theorem sig_false_reach {env : Env} {init c : Config} (hsig : env.sig = false)
    (h : Reach env init c) : c.sigDelivered = init.sigDelivered := by
  induction h with
  | refl => rfl
  | step hr hs ih => exact (sig_false_step hsig hs).trans ih

/-- C1: for every daemon populated by AddService (all controllers down), in
every execution of the machine — any interleaving, any signal/cancellation
timing, and any service behaviours including services that fail with errors —
whenever Daemon.Run has returned, every registered controller's status is
Stopping: none is left Down, Starting or Up.  Run itself has no error
return: the machine's `returned` state carries no error value, regardless
of how many services returned non-nil errors. -/
theorem run_returns_all_stopping (env : Env) (d : Daemon) (c : Config)
    (h : Reach env (initConfig d) c) (hret : c.main = MainPhase.returned) :
    ∀ s ∈ c.slots, s.ctrl.status = ServiceStatus.stopping := by
  obtain ⟨hI, hA⟩ := allDown_reach h (machineInv_initConfig d) (allDown_initConfig d)
  obtain ⟨hB, hW, hP, hS, hF⟩ := hI
  simp only [phaseInv, hret] at hP
  obtain ⟨hcount, hflen, hwg⟩ := hP
  have hlen : c.adds = c.slots.length := hflen hA.1
  have hfin : finCount c.slots = c.slots.length := by
    have hw2 := hW (by rw [hret]; exact fun hx => (nomatch hx))
    omega
  rw [finCount] at hfin
  have h2 := List.countP_eq_length.mp hfin
  intro s hs
  have h3 := h2 s hs
  have h4 : s.task = TaskPhase.finished := by simpa using h3
  exact ((hB s hs).2 h4).1

/-- An environment delivering a termination signal and no base-context
cancellation. -/
def envA : Env := { sig := true, cancel := false }

/-- Execution used as the C1 witness: start "a", set its trigger, receive
the signal, stop (cancelling with the Stopped cause), let "a" observe the
cancellation, finish, join and return. -/
def a1 : Config := afterMain (initConfig daemonA)
def a2 : Config := afterMain a1
def a3 : Config := afterMain a2
def a4 : Config := afterTask a3 0
def a5 : Config := afterSig a4
def a6 : Config := afterMain a5
def a7 : Config := afterMain a6
def a8 : Config := afterMain a7
def a9 : Config := afterTask a8 0
def a10 : Config := afterTask a9 0
def a11 : Config := afterMain a10

theorem run_returns_all_stopping_witness :
    (a11.slots.all fun s => decide (s.ctrl.status = ServiceStatus.stopping)) = true := by
  have hr : Reach envA (initConfig daemonA) a11 :=
    reach_of_trace envA (initConfig daemonA)
      [a1, a2, a3, a4, a5, a6, a7, a8, a9, a10, a11] a11 (by decide) (by decide)
  have h := run_returns_all_stopping envA daemonA a11 hr (by decide)
  rw [List.all_eq_true]
  intro s hs
  exact decide_eq_true (h s hs)

/-- C2 (amended): cancellation of the base context does not trigger the
graceful shutdown sequence.  In any execution in which the environment never
delivers SIGINT/SIGTERM — whether or not it cancels the base context — the
orchestrator never reaches the stop fan-out loop, the join barrier, or the
return of Run; only signal delivery releases it (the cancellation does
propagate to the services' derived contexts, but Daemon.Run itself stays
blocked on the signal channel). -/
theorem no_signal_no_shutdown (env : Env) (d : Daemon) (c : Config)
    (hsig : env.sig = false) (h : Reach env (initConfig d) c) :
    c.main.isShutdown = false := by
  obtain ⟨hI, hA⟩ := allDown_reach h (machineInv_initConfig d) (allDown_initConfig d)
  have hs : c.sigDelivered = false := sig_false_reach hsig h
  cases hx : c.main.isShutdown
  · rfl
  · rcases hI.sigNeeded hx with h1 | h1
    · rw [hs] at h1
      exact Bool.noConfusion h1
    · exact absurd hA.1 h1

theorem no_signal_no_shutdown_witness :
    b7.baseCancelled = true ∧ b7.main.isShutdown = false := by
  refine ⟨by decide, no_signal_no_shutdown envB daemonA b7 rfl ?_⟩
  exact reach_of_trace envB (initConfig daemonA) [b1, b2, b3, b4, b5, b6, b7] b7
    (by decide) (by decide)

/-- C7: whenever the startup loop records a failure at index `i` (the ghost
`failIdx`, i.e. `ok = false` after the error log of line 69), no controller
from index `i` on was ever started, and the orchestrator is no longer in any
startup phase — it does not try further starts and does not wait for a
signal, but proceeds directly to the stop fan-out over every controller and
then the join barrier.  This holds for arbitrary initial controller
statuses (`initFrom`), since a fresh daemon cannot fail to start. -/
theorem start_failure_aborts_startup (env : Env)
    (l : List (String × ServiceStatus × SvcBeh)) (c : Config) (i : Nat)
    (h : Reach env (initFrom l) c) (hf : c.failIdx = some i) :
    noneStartedFrom c.slots i = true ∧ c.main.inStartup = false := by
  have hI := inv_reach h (machineInv_initFrom l)
  exact hI.failFacts i hf

/-- A daemon whose first controller is already up (so its start fails) and
whose second is down. -/
def lF : List (String × ServiceStatus × SvcBeh) :=
  [("u", ServiceStatus.up, SvcBeh.helper), ("v", ServiceStatus.down, SvcBeh.helper)]

def f1 : Config := afterMain (initFrom lF)

theorem start_failure_aborts_startup_witness :
    noneStartedFrom f1.slots 0 = true ∧ f1.main.inStartup = false := by
  have hr : Reach envQ (initFrom lF) f1 :=
    reach_of_trace envQ (initFrom lF) [f1] f1 (by decide) (by decide)
  exact start_failure_aborts_startup envQ lF f1 0 hr (by decide)

/-- C6: when a service's run operation returns a non-nil error, the
completion step of its goroutine logs that error at warning level — never
error or fatal (the only other line it emits is the informational
"%s: stopped") — the controller still transitions to Stopping exactly as on
a normal completion (`finishedSlot`), and no other controller is affected:
every other slot is unchanged, and the orchestrator's control location and
failure flag are untouched (visible in the resulting configuration, which
differs only in slot `i` and the WaitGroup counter). -/
theorem service_error_warn_and_stopping (c : Config) (i : Nat) (s : Slot) (e : GoErr)
    (hs : c.slots[i]? = some s) (hrun : s.task = TaskPhase.running)
    (hres : s.svcResult c.baseCancelled = some (some e)) (hwg : ¬ c.wg = 0) :
    finishStep c i = some ({ c with
        slots := c.slots.set i (finishedSlot s),
        wg := c.wg - 1 }, finishLog s.ctrl.name (some e)) ∧
    ({ level := LogLevel.warn, tag := s.ctrl.name } : LogEvent) ∈
      finishLog s.ctrl.name (some e) ∧
    (∀ ev ∈ finishLog s.ctrl.name (some e),
      ev.level = LogLevel.warn ∨ ev.level = LogLevel.info) ∧
    (finishedSlot s).ctrl.status = ServiceStatus.stopping ∧
    (∀ j, ¬ j = i → (c.slots.set i (finishedSlot s))[j]? = c.slots[j]?) := by
  refine ⟨?_, ?_, ?_, rfl, ?_⟩
  · simp only [finishStep, hs, hres, if_pos hrun, if_neg hwg]
  · simp [finishLog]
  · intro ev hev
    simp only [finishLog, List.mem_append, List.mem_singleton] at hev
    rcases hev with hev | hev
    · exact Or.inl (by rw [hev])
    · exact Or.inr (by rw [hev])
  · intro j hj
    exact List.getElem?_set_ne (fun hx => hj hx.symm)

/-- A running slot whose service is about to fail with the error "boom". -/
def slotBoom : Slot :=
  { ctrl := { name := "w", status := ServiceStatus.up, hasStop := true, ctxId := 1 },
    beh := SvcBeh.immediate (some (GoErr.errMsg "boom")), task := TaskPhase.running,
    upCalled := false, childCause := none }

/-- A configuration in which slot "w" is running while the orchestrator
waits for a signal. -/
def cw : Config :=
  { slots := [slotBoom], main := MainPhase.waiting, wg := 1, adds := 1,
    failIdx := none, sigDelivered := false, baseCancelled := false, baseCtx := 1 }

theorem service_error_warn_and_stopping_witness :
    ({ level := LogLevel.warn, tag := "w" } : LogEvent) ∈
      finishLog "w" (some (GoErr.errMsg "boom")) ∧
    (finishedSlot slotBoom).ctrl.status = ServiceStatus.stopping := by
  have h := service_error_warn_and_stopping cw 0 slotBoom (GoErr.errMsg "boom")
    rfl rfl rfl (by decide)
  exact ⟨h.2.1, h.2.2.2.1⟩

/-- C3 (amended): starting a controller whose status is not Down fails with
an error reporting the current status, launches no task and does not touch
the join barrier — the machine records the failure and moves straight to the
shutdown loop with every goroutine phase unchanged and the WaitGroup
counter unchanged — but it is not entirely without side effects: the
controller's stored context is overwritten (line 113) before the check, so
exactly one field, `ctx`, changes. -/
theorem start_not_down_amended (c : Config) (i : Nat) (s : Slot)
    (hm : c.main = MainPhase.starting i) (hs : c.slots[i]? = some s)
    (hnd : ¬ s.ctrl.status = ServiceStatus.down) :
    s.ctrl.startService c.baseCtx =
      ({ s.ctrl with ctxId := c.baseCtx }, some s.ctrl.status) ∧
    mainStep c = some ({ c with
        slots := c.slots.set i { s with ctrl := { s.ctrl with ctxId := c.baseCtx } },
        failIdx := some i,
        main := MainPhase.stopping 0 },
      [{ level := LogLevel.error, tag := s.ctrl.name }]) ∧
    (∀ j : Nat, ((c.slots.set i
        { s with ctrl := { s.ctrl with ctxId := c.baseCtx } })[j]?).map Slot.task =
      (c.slots[j]?).map Slot.task) ∧
    ({ s with ctrl := { s.ctrl with ctxId := c.baseCtx } }).ctrl.status =
      s.ctrl.status := by
  have h1 := startService_not_down c.baseCtx hnd
  refine ⟨h1, ?_, ?_, rfl⟩
  · simp only [mainStep, hm, hs, h1]
  · intro j
    by_cases hj : i = j
    · subst hj
      rw [List.getElem?_set_self (lt_of_getElem?_some hs), hs]
      rfl
    · rw [List.getElem?_set_ne hj]

/-- The slot of a not-yet-started controller that is already up with stored
context 5. -/
def slotUp : Slot :=
  { ctrl := ctrlUpCtx5, beh := SvcBeh.helper, task := TaskPhase.notStarted,
    upCalled := false, childCause := none }

/-- A one-service daemon state at the top of the startup loop whose
controller is already up with stored context 5, to be started with base
context 7. -/
def cUp : Config :=
  { slots := [slotUp], main := MainPhase.starting 0, wg := 0, adds := 0, failIdx := none,
    sigDelivered := false, baseCancelled := false, baseCtx := 7 }

theorem start_not_down_amended_witness :
    ctrlUpCtx5.startService 7 = ({ ctrlUpCtx5 with ctxId := 7 }, some ServiceStatus.up) ∧
    (mainStep cUp).isSome = true := by
  have h := start_not_down_amended cUp 0 slotUp rfl rfl (by decide)
  constructor
  · exact h.1
  · rw [h.2.1]
    rfl
